import Mathlib

/-!
Verification development for the adelia ORM core (lib/model.js, lib/utils.js,
lib/adapters/sqlite.js), as a shallow embedding in Lean.

JavaScript strings are embedded as `String`/`List Char`; JavaScript objects
used as string-keyed maps are embedded as association lists storing only
defined entries (a key bound to `undefined` is indistinguishable from an
absent key for every operation the source performs: `_.isUndefined` tests).
Promise-valued functions are embedded as pure functions from their inputs
(including an oracle for the rows/errors the database produces) to their
settled results; `Except`/sum types model fulfilled-vs-rejected outcomes.
-/

/-- A primitive JavaScript value stored in a model's `values` map: the adelia
    core only ever stores strings and numbers through the paths modelled here. -/
inductive JVal where
  | vstr (s : String)
  | vnum (n : Int)
  deriving DecidableEq, Repr

/-- Rendering of a `JVal` as done by `sprintf`'s `%s` / JS string coercion. -/
def jshow : JVal → String
  | JVal.vstr s => s
  | JVal.vnum n => toString n

/-- Rendering of a possibly-undefined value, as JS string coercion does. -/
def jshowOpt : Option JVal → String
  | none => "undefined"
  | some v => jshow v

/-- Association-list lookup, embedding `obj[k]` on a string-keyed JS object
    (`none` = the property is undefined). -/
def alookup {κ α : Type} [DecidableEq κ] (m : List (κ × α)) (k : κ) : Option α :=
  (m.find? (fun p => decide (p.1 = k))).map (fun p => p.2)

/-- Association-list update, embedding the assignment `obj[k] = v`. -/
def aupdate {κ α : Type} [DecidableEq κ] (m : List (κ × α)) (k : κ) (v : α) : List (κ × α) :=
  match m with
  | [] => [(k, v)]
  | (k₁, v₁) :: rest => if k₁ = k then (k, v) :: rest else (k₁, v₁) :: aupdate rest k v

/-- Association-list removal, embedding `delete obj[k]`. -/
def aremove {κ α : Type} [DecidableEq κ] (m : List (κ × α)) (k : κ) : List (κ × α) :=
  m.filter (fun p => !(decide (p.1 = k)))

/-- Assignment of a possibly-undefined right-hand side: `obj[k] = rhs` where
    `rhs` may itself be `undefined` (in which case the key reads back as
    undefined, i.e. is absent from the embedded map). -/
def aset {κ α : Type} [DecidableEq κ] (m : List (κ × α)) (k : κ) (v : Option α) : List (κ × α) :=
  match v with
  | some x => aupdate m k x
  | none => aremove m k

/-- A database row as decoded by the adapters: column name to value. -/
abbrev DbRow := List (String × JVal)

/-! ### Naming/Inflection engine (lib/utils.js)

The string functions operate on `List Char`; `_.endsWith` is embedded as a
reverse-prefix test. -/

/-- Embedding of lodash `_.endsWith(t, s)`. -/
def endsL (t s : List Char) : Bool :=
  s.reverse.isPrefixOf t.reverse

/-- The `irregular_nouns` table of lib/utils.js, in insertion order
    (lodash `_.findKey` visits properties in this order). -/
def irregular_nouns : List (List Char × List Char) :=
  [("person".toList, "people".toList),
   ("child".toList, "children".toList),
   ("man".toList, "men".toList),
   ("woman".toList, "women".toList)]

/-- Embedding of `pluralize(term)` from lib/utils.js. The first match is
    `_.findKey(irregular_nouns, (plural, singular) => _.endsWith(term, singular))`;
    on a hit the singular suffix is stripped and the plural appended. The
    `hasOwnProperty` branch and the `endsWith(term, 'child')` branch are kept
    even though every term reaching them already failed the suffix search. -/
def pluralizeL (t : List Char) : List Char :=
  match irregular_nouns.find? (fun q => endsL t q.1) with
  | some q => t.take (t.length - q.1.length) ++ q.2
  | none =>
    match irregular_nouns.find? (fun q => decide (q.1 = t)) with
    | some q => q.2
    | none =>
      if endsL t "child".toList then
        t.take (t.length - 5) ++ "children".toList
      else if endsL t "s".toList || endsL t "x".toList ||
          (endsL t "o".toList && !endsL t "oo".toList) then
        t ++ "es".toList
      else if endsL t "y".toList then
        t.take (t.length - 1) ++ "ies".toList
      else
        t ++ "s".toList

/-- Embedding of `singularize(term)` from lib/utils.js. The result is an
    `Option` because the branch taken when `term` is itself an irregular
    singular key executes `_.findKey(irregular_nouns, term)` with a string
    iteratee (lodash property shorthand): no table value has a property named
    `term`, so the call evaluates to `undefined` (`none` here). -/
def singularizeL (t : List Char) : Option (List Char) :=
  match irregular_nouns.find? (fun q => endsL t q.2) with
  | some q => some (t.take (t.length - q.2.length) ++ q.1)
  | none =>
    match irregular_nouns.find? (fun q => decide (q.1 = t)) with
    | some _ => none
    | none =>
      if endsL t "xes".toList || endsL t "oes".toList then
        some (t.take (t.length - 2))
      else if endsL t "ies".toList then
        some (t.take (t.length - 3) ++ "y".toList)
      else if endsL t "s".toList then
        some (t.take (t.length - 1))
      else
        some t

/-- String-level wrapper for `pluralize`. -/
def pluralize (s : String) : String :=
  String.mk (pluralizeL s.toList)

/-- String-level wrapper for `singularize`. -/
def singularize (s : String) : Option String :=
  (singularizeL s.toList).map String.mk

/-- Scanner for `joined_lower_to_camel_case`: the global regex alternative
    `_([a-z])` applied from the current position onward (an underscore
    followed by a lowercase letter is consumed and the letter uppercased). -/
def jlccScan : List Char → List Char
  | [] => []
  | '_' :: c :: rest =>
    if c.isLower then c.toUpper :: jlccScan rest
    else '_' :: jlccScan (c :: rest)
  | c :: rest => c :: jlccScan rest

/-- Embedding of `joined_lower_to_camel_case(text)` from lib/utils.js:
    `text.replace(/(^[a-z])|_([a-z])/g, uppercase)`. The anchored alternative
    can only fire at position 0; scanning then continues with `_([a-z])`. -/
def joined_lower_to_camel_case (t : List Char) : List Char :=
  match t with
  | [] => []
  | c :: rest => if c.isLower then c.toUpper :: jlccScan rest else jlccScan (c :: rest)

/-- Embedding of `table_name_to_class_name(tablename)`:
    `joined_lower_to_camel_case(singularize(tablename))`. The option tracks
    the possibility that `singularize` evaluated to `undefined`, on which the
    JS composition would throw. -/
def table_name_to_class_name (t : List Char) : Option (List Char) :=
  (singularizeL t).map joined_lower_to_camel_case

/-! ### Placeholder substitution (sprintf `%s` and the adapters' `prepare`)

`conn.prepare(template, a1, a2, ...)` replaces the first occurrence of `{1}`
with `a1`, then the first occurrence of `{2}` with `a2`, and so on (plain
`String.prototype.replace` with a string pattern). `sprintf` splices its
arguments at the `%s` markers of the format string in one left-to-right pass
without rescanning the spliced text. -/

/-- First-occurrence string replacement, as JS `t.replace(pat, rep)` with a
    string pattern. -/
def replaceFirstL (t : List Char) (pat rep : List Char) : List Char :=
  match t with
  | [] => []
  | c :: rest =>
    if pat.isPrefixOf (c :: rest) then rep ++ (c :: rest).drop pat.length
    else c :: replaceFirstL rest pat rep

/-- One left-to-right pass of `sprintf` over a format whose only directives
    are `%s`: each `%s` is replaced by the next argument, which is spliced
    without being rescanned. -/
def sprintfL : List Char → List (List Char) → List Char
  | [], _ => []
  | '%' :: 's' :: rest, a :: as => a ++ sprintfL rest as
  | c :: rest, as => c :: sprintfL rest as

/-- The literal placeholder for `prepare` argument number `i`: an opening
    brace, the decimal digits of `i`, a closing brace. -/
def placeholderL (i : Nat) : List Char :=
  '\x7b' :: ((toString i).toList ++ ['\x7d'])

/-- The adapters' `prepare` substitution loop: argument `i` (counting from 1)
    replaces the first occurrence of its literal placeholder. -/
def prepareSubst : List Char → Nat → List (List Char) → List Char
  | q, _, [] => q
  | q, i, a :: as => prepareSubst (replaceFirstL q (placeholderL i) a) (i + 1) as

/-! ### Schema cache (Model.prototype.initialize / _setInitialized /
_isInitialized / _setColumns / _getColumns)

`_classInitialized` maps a class name to the memoized in-flight promise of
its introspection; an `InitOp` stands for that promise, identified by a
fresh `opId` and carrying its eventual settlement. `initialize()` runs
synchronously up to `_setInitialized`, so in the single-threaded JS runtime
a sequence of calls is an adequate embedding of concurrent callers. -/

/-- Settlement of one `conn.getColumns` introspection round trip. -/
inductive IntrospectOutcome where
  | ok (cols : List String)
  | fail (err : String)
  deriving DecidableEq, Repr

/-- The memoized introspection promise for one class: its identity and its
    eventual settlement. -/
structure InitOp where
  opId : Nat
  outcome : IntrospectOutcome
  deriving DecidableEq, Repr

/-- The process-wide schema-cache state shared by all model instances. -/
structure SchemaState where
  classInitialized : List (String × InitOp)
  columns : List (String × List String)
  nextOpId : Nat
  deriving DecidableEq, Repr

/-- Embedding of one `initialize()` call for class `classname`. If
    `_isInitialized` finds a memoized entry (any stored promise is truthy) it
    is returned and no round trip happens. Otherwise one `getColumns` round
    trip is issued (its settlement given by `oracle`), `_setColumns` stores
    the columns on success only, and the promise itself is memoized via
    `_setInitialized` before `initialize` returns. Result: the returned
    promise, the new state, and the number of round trips issued. -/
def initializeModel (classname : String) (oracle : IntrospectOutcome) (s : SchemaState) :
    InitOp × SchemaState × Nat :=
  match alookup s.classInitialized classname with
  | some op => (op, s, 0)
  | none =>
    let op : InitOp := ⟨s.nextOpId, oracle⟩
    let cols := match oracle with
      | IntrospectOutcome.ok cs => (classname, cs) :: s.columns
      | IntrospectOutcome.fail _ => s.columns
    (op, ⟨(classname, op) :: s.classInitialized, cols, s.nextOpId + 1⟩, 1)

/-- A sequence of `n` `initialize()` calls on the same class (each caller
    obtains a promise before any settles; memoization is synchronous, so the
    sequence embeds concurrent first use). Result: the promises the callers
    received, the final state, and the total number of round trips issued. -/
def initializeCalls (classname : String) (oracle : IntrospectOutcome) (s : SchemaState) :
    Nat → List InitOp × SchemaState × Nat
  | 0 => ([], s, 0)
  | Nat.succ n =>
    let r₁ := initializeModel classname oracle s
    let rest := initializeCalls classname oracle r₁.2.1 n
    (r₁.1 :: rest.1, rest.2.1, r₁.2.2 + rest.2.2)

/-! ### Model instance accessors (get / set / has / unset)

An instance owns `values` (column values) and the single extension property:
`set` on a non-column key executes `this.key = value`, i.e. it writes the
literal property named `key`, discarding which key the caller passed. -/

/-- A model instance's own mutable state: the `values` map and the single
    extension property `key` (`none` when that property is undefined). -/
structure ModelInstance where
  values : List (String × JVal)
  extSlot : Option JVal
  deriving DecidableEq, Repr

/-- Parse a string of decimal digits as a JS array index (`none` when the
    string is empty or holds a non-digit). -/
def arrayIndex? (cs : List Char) : Option Nat :=
  if !cs.isEmpty && cs.all Char.isDigit then
    some (cs.foldl (fun a c => a * 10 + (c.toNat - 48)) 0)
  else none

/-- Embedding of `_hasColumn(key)`: it evaluates `columns[key]` where
    `columns` is the ARRAY of column names, so only array indices below the
    length and own array properties such as `length` are defined — an actual
    column name never is. (Array.prototype method names are not modelled;
    no claim evaluates the function at one.) -/
def hasColumnJS (cols : List String) (k : String) : Bool :=
  decide (k = "length") ||
    (match arrayIndex? k.toList with
     | some i => decide (i < cols.length)
     | none => false)

/-- Result of `get(key)` after initialization: a value or `null`. -/
inductive GetResult where
  | val (v : JVal)
  | nullRes
  deriving DecidableEq, Repr

/-- Embedding of the post-initialization body of `get(key)`: `values[key]`
    if defined, else the extension property `this.key` if defined (whatever
    key is asked for), else `null`. -/
def getModel (inst : ModelInstance) (k : String) : GetResult :=
  match alookup inst.values k with
  | some v => GetResult.val v
  | none =>
    match inst.extSlot with
    | some v => GetResult.val v
    | none => GetResult.nullRes

/-- Embedding of the post-initialization body of `set(key, value)`: a key
    `_hasColumn` accepts goes to `values`, any other key overwrites the
    single extension property `this.key`. -/
def setModel (cols : List String) (inst : ModelInstance) (k : String) (v : JVal) : ModelInstance :=
  if hasColumnJS cols k then { inst with values := aupdate inst.values k v }
  else { inst with extSlot := some v }

/-- Embedding of the post-initialization body of `has(key)`: false outright
    when `values` is empty, else true when `values[key]` or the extension
    property is defined. -/
def hasModel (inst : ModelInstance) (k : String) : Bool :=
  if inst.values.isEmpty then false
  else if (alookup inst.values k).isSome then true
  else inst.extSlot.isSome

/-- Embedding of the post-initialization body of `unset(key)`: a no-op when
    `values` is empty, else deletes `values[key]` if defined, else deletes
    the extension property if defined. -/
def unsetModel (inst : ModelInstance) (k : String) : ModelInstance :=
  if inst.values.isEmpty then inst
  else if (alookup inst.values k).isSome then { inst with values := aremove inst.values k }
  else if inst.extSlot.isSome then { inst with extSlot := none }
  else inst

/-! ### findById (Model.prototype.findById / _add_to_pool) -/

/-- The object pool: class name to a map from primary-key value to the
    pooled instance (instances are identified by a reference token). -/
abbrev PoolMap := List (String × List (JVal × Nat))

/-- Embedding of `_add_to_pool(classname, id, obj)`. -/
def addToPool (pool : PoolMap) (classname : String) (id : JVal) (objRef : Nat) : PoolMap :=
  match alookup pool classname with
  | none => aupdate pool classname [(id, objRef)]
  | some m => aupdate pool classname (aupdate m id objRef)

/-- Embedding of `_get_from_pool(classname, id)`. -/
def poolLookup (pool : PoolMap) (classname : String) (id : JVal) : Option Nat :=
  match alookup pool classname with
  | none => none
  | some m => alookup m id

/-- The structured error thrown by `findById` on zero rows. -/
structure NotFoundError where
  code : String
  deriving DecidableEq, Repr

/-- The query string `findById(id)` builds:
    `sprintf("SELECT * FROM \x7b1\x7d WHERE %s = '\x7b2\x7d' LIMIT 1", primaryKey)`
    followed by `conn.prepare(query, tableName, id)`. -/
def findByIdBuiltQuery (table pk : String) (id : JVal) : String :=
  String.mk (prepareSubst
    (sprintfL "SELECT * FROM `{1}` WHERE `%s` = '{2}' LIMIT 1".toList [pk.toList])
    1 [table.toList, (jshow id).toList])

/-- Embedding of `findById`'s result handler: on zero rows it throws
    `{code: 'ENOTFOUND'}`; on a row it assigns `values[column] = row[column]`
    for every known column (an assignment of `undefined` leaves the key
    reading back as undefined), registers the instance into the pool under
    `(classname, id)`, and resolves with the instance itself. -/
def findByIdExec (classname : String) (cols : List String) (results : List DbRow)
    (id : JVal) (values₀ : List (String × JVal)) (pool : PoolMap) (selfRef : Nat) :
    Except NotFoundError (List (String × JVal) × PoolMap × Nat) :=
  if results.length < 1 then Except.error ⟨"ENOTFOUND"⟩
  else
    let row := results.headD []
    let values := cols.foldl (fun acc c => aset acc c (alookup row c)) values₀
    Except.ok (values, addToPool pool classname id selfRef, selfRef)

/-! ### findAll (Model.prototype.findAll) -/

/-- The recognized `findAll` options; `none` embeds an option the caller did
    not supply. -/
structure FindAllParams where
  whereClause : Option JVal
  orderBy : Option JVal
  limit : Option JVal
  start : Option JVal
  deriving DecidableEq, Repr

/-- Embedding of lodash `_.isEmpty` on the values that can appear as
    `findAll` options: `undefined` is empty, a string is empty iff its length
    is 0, and a NUMBER is always empty (numbers are not collections, so
    `_.isEmpty(1) === true`). -/
def isEmptyJS : Option JVal → Bool
  | none => true
  | some (JVal.vstr s) => s.isEmpty
  | some (JVal.vnum _) => true

/-- The query string `findAll(params)` builds and executes: each option is
    replaced by its default whenever `_.isEmpty` holds of it, then
    `sprintf('SELECT * FROM \x7b1\x7d WHERE (1 AND (%s)) ORDER BY %s LIMIT %s, %s',
    whereClause, orderBy, start, limit)` is prepared with the table name. -/
def findAllBuiltQuery (table pk : String) (p : FindAllParams) : String :=
  let w := if isEmptyJS p.whereClause then some (JVal.vstr "1") else p.whereClause
  let ob := if isEmptyJS p.orderBy
    then some (JVal.vstr (String.mk (sprintfL "`%s` ASC".toList [pk.toList])))
    else p.orderBy
  let lim := if isEmptyJS p.limit then some (JVal.vnum 999) else p.limit
  let st := if isEmptyJS p.start then some (JVal.vnum 0) else p.start
  String.mk (prepareSubst
    (sprintfL "SELECT * FROM `{1}` WHERE (1 AND (%s)) ORDER BY %s LIMIT %s, %s".toList
      [(jshowOpt w).toList, (jshowOpt ob).toList, (jshowOpt st).toList, (jshowOpt lim).toList])
    1 [table.toList])

/-- Embedding of `findAll`'s result handler: zero rows resolve `null`;
    otherwise each row is rematerialized by calling `findById` on a fresh
    instance with the row's primary-key value — this computes the id passed
    to each such `findById` call. -/
def findAllRematIds (rows : List DbRow) (pk : String) : Option (List (Option JVal)) :=
  if rows.length > 0 then some (rows.map (fun r => alookup r pk)) else none

/-! ### save (Model.prototype.save) -/

/-- The options object a caller may pass to `save` (per the repository's
    tests, `{force, ignore}`). -/
structure SaveOptions where
  force : Bool
  ignore : Bool
  deriving DecidableEq, Repr

/-- The query string `save` builds. The `opts` argument is accepted because
    callers pass an options object, but the source declares `save: function()`
    with no parameter: the argument is DISCARDED, and the decision reads the
    instance fields `_force_create` and `_ignore` instead (modelled by
    `forceCreateDefined` / `ignoreDefined`; no code path in the repository
    assigns either field). Columns whose value is undefined are excluded
    from `nonempty` and so omitted from the statement. -/
def saveBuiltQuery (table pk : String) (cols : List String) (values : List (String × JVal))
    (forceCreateDefined ignoreDefined : Bool) (opts : SaveOptions) : String :=
  let _ := opts
  let nonempty := cols.filter (fun c => (alookup values c).isSome)
  if (alookup values pk).isSome && !forceCreateDefined then
    String.mk (prepareSubst
      ("UPDATE `{1}` SET " ++
        String.intercalate ", "
          (nonempty.map (fun c => "`" ++ c ++ "` = '" ++ jshowOpt (alookup values c) ++ "'")) ++
        " WHERE `" ++ pk ++ "` = '{2}'").toList
      1 [table.toList, (jshowOpt (alookup values pk)).toList])
  else
    String.mk (prepareSubst
      ((if ignoreDefined then "INSERT IGNORE" else "INSERT") ++ " INTO `{1}` (" ++
        String.intercalate ", " (nonempty.map (fun c => "`" ++ c ++ "`")) ++
        ") VALUES (" ++
        String.intercalate ", "
          (nonempty.map (fun c => "'" ++ jshowOpt (alookup values c) ++ "'")) ++
        ")").toList
      1 [table.toList])

/-- Embedding of `save`'s post-exec handler: when the result carries a
    defined, non-zero `insertId` it becomes the new primary-key value;
    `save` then resolves with the instance itself. -/
def saveAdoptId (values : List (String × JVal)) (pk : String) (insertId : Option Int) :
    List (String × JVal) :=
  match insertId with
  | some n => if n ≠ 0 then aupdate values pk (JVal.vnum n) else values
  | none => values

/-! ### Model registry (Model.create / Model.find) -/

/-- A synthesized model constructor: its identity (reference equality is
    modelled by `ctorId`) and its `__cls` tag
    (`table_name_to_class_name(pluralize(name))`; `none` embeds the throw
    that would occur were `singularize` to return undefined). -/
structure Ctor where
  ctorId : Nat
  cls : Option (List Char)
  deriving DecidableEq, Repr

/-- The registry state: `Model._registry` plus a supply of constructor
    identities. -/
structure RegistryState where
  registry : List (String × Ctor)
  nextCtorId : Nat
  deriving DecidableEq, Repr

/-- The initial registry `{model: Model}`. -/
def initialRegistry : RegistryState :=
  ⟨[("model", ⟨0, some "Model".toList⟩)], 1⟩

/-- Character-wise lowercasing, embedding `String.prototype.toLowerCase` on
    the ASCII names the registry receives. -/
def toLowerJS (s : String) : String :=
  String.mk (s.toList.map Char.toLower)

/-- Embedding of `name || 'model'`: the falsy default fires on a missing
    name and on the empty string. -/
def defaultName : Option String → String
  | none => "model"
  | some s => if s = "" then "model" else s

/-- Embedding of `(name || 'model').toLowerCase()`. -/
def normalizeName (name : Option String) : String :=
  toLowerJS (defaultName name)

/-- Embedding of `Model.create(name)`: normalize the name; if unregistered,
    synthesize a constructor tagged with the derived class name and register
    it; return the registry entry. -/
def createModel (name : Option String) (r : RegistryState) : Ctor × RegistryState :=
  let n := normalizeName name
  match alookup r.registry n with
  | some c => (c, r)
  | none =>
    let c : Ctor := ⟨r.nextCtorId, table_name_to_class_name (pluralizeL n.toList)⟩
    (c, ⟨(n, c) :: r.registry, r.nextCtorId + 1⟩)

/-- Embedding of `Model.find(id, name)`: resolve (or create) the constructor
    for the lowercased name, instantiate it, and delegate to the instance's
    `findById` — the result records which constructor the delegated call runs
    on and the id it passes. -/
def findModel (id : JVal) (name : Option String) (r : RegistryState) :
    (Ctor × JVal) × RegistryState :=
  let c := createModel (some (normalizeName name)) r
  ((c.1, id), c.2)

/-! ### SQLite adapter delete retry (lib/adapters/sqlite.js)

`delete` chains `exec().catch(handler)` and returns that promise. Three
facts of the source fix the settlement the caller observes:
the guard `if (!_.isUndefined(ex)) throw ex` runs synchronously, before the
asynchronous `catch` handler can assign `ex`, so the throw is dead code; the
`catch` handler itself returns `undefined` on every branch (the recursive
`self.delete(...)` it starts on a busy error is assigned to a local variable
after the promise was already returned, so its result is discarded and the
retry proceeds detached); and the trailing `.catch` only logs. Hence the
caller's promise always fulfills — with the rows on first-attempt success
and with `undefined` otherwise — and is never rejected. -/

/-- The `MAX_RETRIES` constant of lib/adapters/sqlite.js. -/
def MAX_RETRIES : Nat := 10

/-- Settlement of the first exec attempt and of each detached retry, as
    produced by the backing store. -/
inductive ExecOutcome where
  | ok (rows : List DbRow)
  | err (code : String)
  deriving DecidableEq, Repr

/-- Settlement of the promise `delete` returns to its caller. -/
inductive Settle where
  | fulfilled (v : Option (List DbRow))
  | rejectedErr (code : String)
  deriving DecidableEq, Repr

/-- Observable trace of one `delete` call tree: total exec attempts issued
    (the first plus every detached retry), `console.warn` count, and the
    settlement of the caller-facing promise. -/
structure DeleteTrace where
  attempts : Nat
  warns : Nat
  settle : Settle
  deriving DecidableEq, Repr

/-- The retry-count bump inside the busy branch:
    `_.isNumber(options.retryCount) ? options.retryCount + 1 : 1`. -/
def bumpRetry : Option Nat → Nat
  | some k => k + 1
  | none => 1

/-- Embedding of `SQLiteAdapter.prototype.delete`, driven by the list of
    exec settlements the backing store would produce for the successive
    attempts. `retryCount` is the `options.retryCount` field (shared by
    reference across the recursion; `none` = not yet a number). A busy error
    increments it; while it stays below `MAX_RETRIES` a detached retry runs;
    at the ceiling a warning is logged. Every error branch leaves the
    caller's promise fulfilled with `undefined` (see the section comment). -/
def deleteRun (retryCount : Option Nat) : List ExecOutcome → DeleteTrace
  | [] => ⟨0, 0, Settle.fulfilled none⟩
  | ExecOutcome.ok rows :: _ => ⟨1, 0, Settle.fulfilled (some rows)⟩
  | ExecOutcome.err c :: rest =>
    if c = "SQLITE_BUSY" then
      if bumpRetry retryCount < MAX_RETRIES then
        let bg := deleteRun (some (bumpRetry retryCount)) rest
        ⟨1 + bg.attempts, bg.warns, Settle.fulfilled none⟩
      else ⟨1, 1, Settle.fulfilled none⟩
    else ⟨1, 0, Settle.fulfilled none⟩

/-- Embedding of `deleteOne`: it merges `{one: true}` into the options and
    delegates to `delete` unchanged in every respect modelled here. -/
def deleteOneRun (retryCount : Option Nat) (outcomes : List ExecOutcome) : DeleteTrace :=
  deleteRun retryCount outcomes

/-! ## Lemmas and claim theorems -/

lemma alookup_nil {κ α : Type} [DecidableEq κ] (k : κ) :
    alookup ([] : List (κ × α)) k = none := rfl

lemma alookup_cons {κ α : Type} [DecidableEq κ] (k₁ : κ) (v₁ : α) (rest : List (κ × α)) (j : κ) :
    alookup ((k₁, v₁) :: rest) j = if k₁ = j then some v₁ else alookup rest j := by
  by_cases h : k₁ = j <;> simp [alookup, List.find?_cons, h]

lemma alookup_cons_self {κ α : Type} [DecidableEq κ] (k : κ) (v : α) (m : List (κ × α)) :
    alookup ((k, v) :: m) k = some v := by
  simp [alookup_cons]

lemma aupdate_cons {κ α : Type} [DecidableEq κ] (k₁ : κ) (v₁ : α) (rest : List (κ × α))
    (k : κ) (v : α) :
    aupdate ((k₁, v₁) :: rest) k v =
      if k₁ = k then (k, v) :: rest else (k₁, v₁) :: aupdate rest k v := rfl

lemma aremove_cons {κ α : Type} [DecidableEq κ] (k₁ : κ) (v₁ : α) (rest : List (κ × α)) (k : κ) :
    aremove ((k₁, v₁) :: rest) k =
      if k₁ = k then aremove rest k else (k₁, v₁) :: aremove rest k := by
  by_cases h : k₁ = k <;> simp [aremove, List.filter_cons, h]

lemma alookup_aupdate_self {κ α : Type} [DecidableEq κ] (m : List (κ × α)) (k : κ) (v : α) :
    alookup (aupdate m k v) k = some v := by
  induction m with
  | nil => simp [aupdate, alookup_cons]
  | cons p rest ih =>
    obtain ⟨k₁, v₁⟩ := p
    by_cases h : k₁ = k <;> simp [aupdate_cons, h, alookup_cons, ih]

lemma alookup_aupdate_ne {κ α : Type} [DecidableEq κ] (m : List (κ × α)) {k j : κ} (v : α)
    (h : j ≠ k) : alookup (aupdate m k v) j = alookup m j := by
  induction m with
  | nil =>
    have hne : k ≠ j := fun hh => h hh.symm
    simp [aupdate, alookup_cons, hne, alookup_nil]
  | cons p rest ih =>
    obtain ⟨k₁, v₁⟩ := p
    by_cases hk : k₁ = k
    · subst hk
      have hne : k₁ ≠ j := fun hh => h hh.symm
      simp [aupdate_cons, alookup_cons, hne]
    · simp [aupdate_cons, hk, alookup_cons, ih]

lemma alookup_aremove_self {κ α : Type} [DecidableEq κ] (m : List (κ × α)) (k : κ) :
    alookup (aremove m k) k = none := by
  induction m with
  | nil => simp [aremove, alookup_nil]
  | cons p rest ih =>
    obtain ⟨k₁, v₁⟩ := p
    by_cases h : k₁ = k <;> simp [aremove_cons, h, alookup_cons, ih]

lemma alookup_aremove_ne {κ α : Type} [DecidableEq κ] (m : List (κ × α)) {k j : κ}
    (h : j ≠ k) : alookup (aremove m k) j = alookup m j := by
  induction m with
  | nil => simp [aremove]
  | cons p rest ih =>
    obtain ⟨k₁, v₁⟩ := p
    by_cases hk : k₁ = k
    · subst hk
      have hne : k₁ ≠ j := fun hh => h hh.symm
      simp [aremove_cons, alookup_cons, hne, ih]
    · simp [aremove_cons, hk, alookup_cons, ih]

lemma alookup_aset_self {κ α : Type} [DecidableEq κ] (m : List (κ × α)) (k : κ) (v : Option α) :
    alookup (aset m k v) k = v := by
  cases v with
  | some x => simpa [aset] using alookup_aupdate_self m k x
  | none => simpa [aset] using alookup_aremove_self m k

lemma alookup_aset_ne {κ α : Type} [DecidableEq κ] (m : List (κ × α)) {k j : κ} (v : Option α)
    (h : j ≠ k) : alookup (aset m k v) j = alookup m j := by
  cases v with
  | some x => simpa [aset] using alookup_aupdate_ne m x h
  | none => simpa [aset] using alookup_aremove_ne m h

lemma alookup_foldl_aset_notMem (row : DbRow) (cols : List String)
    (acc : List (String × JVal)) (c : String) (h : c ∉ cols) :
    alookup (cols.foldl (fun a x => aset a x (alookup row x)) acc) c = alookup acc c := by
  induction cols generalizing acc with
  | nil => rfl
  | cons x cs ih =>
    have hx : c ≠ x := fun hh => h (hh ▸ List.mem_cons_self x cs)
    have hcs : c ∉ cs := fun hh => h (List.mem_cons_of_mem x hh)
    simp only [List.foldl_cons]
    rw [ih _ hcs, alookup_aset_ne _ _ hx]

lemma alookup_foldl_aset_mem (row : DbRow) (cols : List String)
    (acc : List (String × JVal)) (c : String) (h : c ∈ cols) :
    alookup (cols.foldl (fun a x => aset a x (alookup row x)) acc) c = alookup row c := by
  induction cols generalizing acc with
  | nil => cases h
  | cons x cs ih =>
    simp only [List.foldl_cons]
    by_cases hcs : c ∈ cs
    · exact ih _ hcs
    · have hx : c = x := by
        rcases List.mem_cons.mp h with h' | h'
        · exact h'
        · exact absurd h' hcs
      subst hx
      rw [alookup_foldl_aset_notMem _ _ _ _ hcs, alookup_aset_self]

lemma poolLookup_addToPool (pool : PoolMap) (cn : String) (id : JVal) (r : Nat) :
    poolLookup (addToPool pool cn id r) cn id = some r := by
  unfold addToPool poolLookup
  cases h : alookup pool cn with
  | none => rw [alookup_aupdate_self]; exact alookup_cons_self id r []
  | some m => rw [alookup_aupdate_self]; exact alookup_aupdate_self m id r

lemma initializeModel_memo (classname : String) (oracle : IntrospectOutcome) (s : SchemaState)
    (op : InitOp) (h : alookup s.classInitialized classname = some op) :
    initializeModel classname oracle s = (op, s, 0) := by
  unfold initializeModel
  rw [h]

lemma initializeModel_fresh (classname : String) (oracle : IntrospectOutcome) (s : SchemaState)
    (h : alookup s.classInitialized classname = none) :
    initializeModel classname oracle s =
      (⟨s.nextOpId, oracle⟩,
       ⟨(classname, ⟨s.nextOpId, oracle⟩) :: s.classInitialized,
        (match oracle with
         | IntrospectOutcome.ok cs => (classname, cs) :: s.columns
         | IntrospectOutcome.fail _ => s.columns),
        s.nextOpId + 1⟩, 1) := by
  unfold initializeModel
  rw [h]

lemma initializeCalls_memo (classname : String) (oracle : IntrospectOutcome) (s : SchemaState)
    (op : InitOp) (n : Nat) (h : alookup s.classInitialized classname = some op) :
    initializeCalls classname oracle s n = (List.replicate n op, s, 0) := by
  induction n with
  | zero => rfl
  | succ n ih =>
    simp only [initializeCalls, initializeModel_memo classname oracle s op h, ih,
      List.replicate_succ]

lemma schema_single_flight_aux (classname : String) (oracle : IntrospectOutcome)
    (s : SchemaState) (n : Nat) (h : alookup s.classInitialized classname = none) :
    (initializeCalls classname oracle s (n + 1)).2.2 = 1 ∧
    (initializeCalls classname oracle s (n + 1)).1 =
      List.replicate (n + 1) (InitOp.mk s.nextOpId oracle) := by
  have hfresh := initializeModel_fresh classname oracle s h
  have hmemo : alookup ((classname, InitOp.mk s.nextOpId oracle) :: s.classInitialized)
      classname = some ⟨s.nextOpId, oracle⟩ := alookup_cons_self _ _ _
  constructor
  · simp only [initializeCalls, hfresh]
    rw [initializeCalls_memo _ oracle _ _ n hmemo]
    rfl
  · simp only [initializeCalls, hfresh]
    rw [initializeCalls_memo _ oracle _ _ n hmemo]
    simp [List.replicate_succ]

/-- C1: schema-cache single-flight. From a state in which `classname` has no
    memoized entry, a sequence of `n + 1` `initialize()` calls on that class
    (all obtaining their promise before any settles) issues exactly one
    `getColumns` round trip, and every caller receives the one memoized
    operation. -/
theorem schema_cache_single_flight (classname : String) (oracle : IntrospectOutcome)
    (s : SchemaState) (n : Nat) (h : alookup s.classInitialized classname = none) :
    (initializeCalls classname oracle s (n + 1)).2.2 = 1 ∧
    (initializeCalls classname oracle s (n + 1)).1 =
      List.replicate (n + 1) (InitOp.mk s.nextOpId oracle) :=
  schema_single_flight_aux classname oracle s n h

/-- Witness for C1: three first-use callers of class `cat` share one
    introspection. -/
theorem schema_cache_single_flight_witness :
    (initializeCalls "cat" (IntrospectOutcome.ok ["id", "name"]) ⟨[], [], 0⟩ 3).2.2 = 1 ∧
    (initializeCalls "cat" (IntrospectOutcome.ok ["id", "name"]) ⟨[], [], 0⟩ 3).1 =
      List.replicate 3 (InitOp.mk 0 (IntrospectOutcome.ok ["id", "name"])) :=
  schema_cache_single_flight "cat" (IntrospectOutcome.ok ["id", "name"]) ⟨[], [], 0⟩ 2 rfl

/-- C2 counterexample: after a failed introspection the class is NOT retried
    from scratch — a second `initialize()` issues zero `getColumns` round
    trips (the claim requires a new one) and returns the same memoized
    rejected operation even though the backing store would now succeed. -/
theorem schema_cache_no_retry_counterexample :
    (initializeModel "cat" (IntrospectOutcome.ok ["id"])
      (initializeModel "cat" (IntrospectOutcome.fail "EIO") ⟨[], [], 0⟩).2.1).2.2 = 0 ∧
    (initializeModel "cat" (IntrospectOutcome.ok ["id"])
      (initializeModel "cat" (IntrospectOutcome.fail "EIO") ⟨[], [], 0⟩).2.1).1 =
      InitOp.mk 0 (IntrospectOutcome.fail "EIO") := by
  constructor <;> rfl

/-- C2 (amended): when the introspection issued by a first `initialize()`
    fails, every concurrent caller receives that same rejected operation (the
    failure propagates to each of them), no column list is recorded for the
    class, BUT the rejected operation stays memoized: any subsequent
    `initialize()` call issues no new `getColumns` round trip and returns the
    same rejected operation instead of retrying. -/
theorem schema_cache_failure_memoized (classname e : String) (s : SchemaState)
    (oracle₂ : IntrospectOutcome) (n : Nat)
    (h : alookup s.classInitialized classname = none)
    (hcols : alookup s.columns classname = none) :
    (initializeCalls classname (IntrospectOutcome.fail e) s (n + 1)).1 =
      List.replicate (n + 1) (InitOp.mk s.nextOpId (IntrospectOutcome.fail e)) ∧
    alookup (initializeModel classname (IntrospectOutcome.fail e) s).2.1.columns classname
      = none ∧
    (initializeModel classname oracle₂
      (initializeModel classname (IntrospectOutcome.fail e) s).2.1).2.2 = 0 ∧
    (initializeModel classname oracle₂
      (initializeModel classname (IntrospectOutcome.fail e) s).2.1).1 =
      InitOp.mk s.nextOpId (IntrospectOutcome.fail e) := by
  have hfresh := initializeModel_fresh classname (IntrospectOutcome.fail e) s h
  have hmemo : alookup
      ((classname, InitOp.mk s.nextOpId (IntrospectOutcome.fail e)) :: s.classInitialized)
      classname = some ⟨s.nextOpId, IntrospectOutcome.fail e⟩ := alookup_cons_self _ _ _
  refine ⟨(schema_single_flight_aux classname (IntrospectOutcome.fail e) s n h).2, ?_, ?_, ?_⟩
  · rw [hfresh]
    exact hcols
  · rw [hfresh, initializeModel_memo classname oracle₂ _ _ hmemo]
  · rw [hfresh, initializeModel_memo classname oracle₂ _ _ hmemo]

/-- Witness for the amended C2 theorem at a concrete failing introspection. -/
theorem schema_cache_failure_memoized_witness :
    (initializeCalls "cat" (IntrospectOutcome.fail "EIO") ⟨[], [], 0⟩ 2).1 =
      List.replicate 2 (InitOp.mk 0 (IntrospectOutcome.fail "EIO")) ∧
    alookup (initializeModel "cat" (IntrospectOutcome.fail "EIO") ⟨[], [], 0⟩).2.1.columns "cat"
      = none ∧
    (initializeModel "cat" (IntrospectOutcome.ok ["id"])
      (initializeModel "cat" (IntrospectOutcome.fail "EIO") ⟨[], [], 0⟩).2.1).2.2 = 0 ∧
    (initializeModel "cat" (IntrospectOutcome.ok ["id"])
      (initializeModel "cat" (IntrospectOutcome.fail "EIO") ⟨[], [], 0⟩).2.1).1 =
      InitOp.mk 0 (IntrospectOutcome.fail "EIO") :=
  schema_cache_failure_memoized "cat" "EIO" ⟨[], [], 0⟩ (IntrospectOutcome.ok ["id"]) 1 rfl rfl

lemma charOfNat_toNat (n : Nat) (h : n.isValidChar) : (Char.ofNat n).toNat = n := by
  unfold Char.ofNat
  rw [dif_pos h]
  unfold Char.ofNatAux Char.toNat
  simp [UInt32.toNat, UInt32.ofNatCore]

lemma charToLower_cases (c : Char) :
    (Char.toLower c).toNat = c.toNat + 32 ∧ 65 ≤ c.toNat ∧ c.toNat ≤ 90 ∨
    Char.toLower c = c := by
  by_cases h : 65 ≤ c.toNat ∧ c.toNat ≤ 90
  · left
    refine ⟨?_, h⟩
    unfold Char.toLower
    rw [if_pos ⟨h.1, h.2⟩]
    exact charOfNat_toNat _ (by unfold Nat.isValidChar; omega)
  · right
    unfold Char.toLower
    rw [if_neg (by omega)]

lemma charToLower_of_not_upper (c : Char) (h : ¬(65 ≤ c.toNat ∧ c.toNat ≤ 90)) :
    Char.toLower c = c := by
  unfold Char.toLower
  rw [if_neg (by omega)]

lemma charToLower_idem (c : Char) : Char.toLower (Char.toLower c) = Char.toLower c := by
  rcases charToLower_cases c with ⟨h1, h2, h3⟩ | h
  · exact charToLower_of_not_upper _ (by omega)
  · rw [h]
    rcases charToLower_cases c with ⟨h1, _, _⟩ | h₂
    · rw [h] at h1
      exact charToLower_of_not_upper _ (by omega)
    · exact h₂

lemma toList_mk (l : List Char) : (String.mk l).toList = l := rfl

lemma toLowerJS_idem (s : String) : toLowerJS (toLowerJS s) = toLowerJS s := by
  unfold toLowerJS
  rw [toList_mk, List.map_map]
  congr 1
  apply List.map_congr_left
  intro a _
  exact charToLower_idem a

lemma string_eq_empty_of_toList_nil (s : String) (h : s.toList = []) : s = "" := by
  cases s with
  | mk data =>
    rw [toList_mk] at h
    rw [h]

lemma toLowerJS_eq_empty_iff (s : String) : toLowerJS s = "" ↔ s = "" := by
  constructor
  · intro h
    unfold toLowerJS at h
    have h2 : s.toList.map Char.toLower = "".toList := by
      rw [← toList_mk (s.toList.map Char.toLower), h]
    simp only [List.map_eq_nil_iff] at h2
    exact string_eq_empty_of_toList_nil s (by simpa using h2)
  · intro h
    rw [h]
    rfl

lemma defaultName_ne_empty (name : Option String) : defaultName name ≠ "" := by
  cases name with
  | none => decide
  | some s =>
    by_cases hs : s = ""
    · simp [defaultName, hs]
    · simp [defaultName, hs]

lemma normalizeName_ne_empty (name : Option String) : normalizeName name ≠ "" :=
  fun hc => defaultName_ne_empty name ((toLowerJS_eq_empty_iff _).mp hc)

lemma normalizeName_idem (name : Option String) :
    normalizeName (some (normalizeName name)) = normalizeName name := by
  have h1 : defaultName (some (normalizeName name)) = normalizeName name := by
    show (if normalizeName name = "" then "model" else normalizeName name) = normalizeName name
    rw [if_neg (normalizeName_ne_empty name)]
  calc normalizeName (some (normalizeName name))
      = toLowerJS (defaultName (some (normalizeName name))) := rfl
    _ = toLowerJS (normalizeName name) := by rw [h1]
    _ = normalizeName name := toLowerJS_idem (defaultName name)

lemma createModel_of_registered (name : Option String) (r : RegistryState) (c : Ctor)
    (h : alookup r.registry (normalizeName name) = some c) :
    createModel name r = (c, r) := by
  simp only [createModel]
  rw [h]

lemma createModel_registered_after (name : Option String) (r : RegistryState) :
    alookup (createModel name r).2.registry (normalizeName name) =
      some (createModel name r).1 := by
  simp only [createModel]
  cases h : alookup r.registry (normalizeName name) with
  | some c => exact h
  | none => exact alookup_cons_self _ _ _

lemma createModel_normalized (name : Option String) (r : RegistryState) :
    createModel (some (normalizeName name)) r = createModel name r := by
  simp only [createModel]
  rw [normalizeName_idem]

/-- C7: registry idempotence. A second `Model.create` with the same name
    returns the reference-identical constructor and leaves the registry
    unchanged; the constructor is registered under the lowercased, defaulted
    name; and `Model.find(id, name)` on a name never explicitly created
    synthesizes exactly the constructor `create` would and delegates to
    `findById` with the given id on an instance of it. -/
theorem registry_create_idempotent_find (name : Option String) (r : RegistryState) (id : JVal)
    (h : alookup r.registry (normalizeName name) = none) :
    createModel name ((createModel name r).2) = ((createModel name r).1, (createModel name r).2) ∧
    alookup (createModel name r).2.registry (normalizeName name) = some (createModel name r).1 ∧
    (createModel name r).1 =
      ⟨r.nextCtorId, table_name_to_class_name (pluralizeL (normalizeName name).toList)⟩ ∧
    (findModel id name r).2 = (createModel name r).2 ∧
    (findModel id name r).1 = ((createModel name r).1, id) := by
  refine ⟨?_, createModel_registered_after name r, ?_, ?_, ?_⟩
  · exact createModel_of_registered name _ _ (createModel_registered_after name r)
  · simp only [createModel]
    rw [h]
  · unfold findModel
    rw [createModel_normalized]
  · unfold findModel
    rw [createModel_normalized]

/-- Witness for C7: the never-created name `BIRD` (normalized to `bird`). -/
theorem registry_create_idempotent_find_witness :
    createModel (some "BIRD") ((createModel (some "BIRD") initialRegistry).2) =
      ((createModel (some "BIRD") initialRegistry).1,
       (createModel (some "BIRD") initialRegistry).2) ∧
    alookup (createModel (some "BIRD") initialRegistry).2.registry (normalizeName (some "BIRD"))
      = some (createModel (some "BIRD") initialRegistry).1 ∧
    (createModel (some "BIRD") initialRegistry).1 =
      ⟨1, table_name_to_class_name (pluralizeL (normalizeName (some "BIRD")).toList)⟩ ∧
    (findModel (JVal.vnum 7) (some "BIRD") initialRegistry).2 =
      (createModel (some "BIRD") initialRegistry).2 ∧
    (findModel (JVal.vnum 7) (some "BIRD") initialRegistry).1 =
      ((createModel (some "BIRD") initialRegistry).1, JVal.vnum 7) :=
  registry_create_idempotent_find (some "BIRD") initialRegistry (JVal.vnum 7) (by decide)

/-- C9 counterexample: the extension slot is returned for ANY requested key
    that is not a defined column value — after `set('foo', 'bar')` on an
    instance with no column values, `get('baz')` resolves with `'bar'`,
    whereas the claim requires `null` because `'baz'` is not the key the
    extension value was stored under. -/
theorem get_extension_slot_ignores_key :
    getModel (setModel ["id", "name"] ⟨[], none⟩ "foo" (JVal.vstr "bar")) "baz" =
      GetResult.val (JVal.vstr "bar") ∧
    GetResult.val (JVal.vstr "bar") ≠ GetResult.nullRes := by
  constructor
  · decide
  · decide

/-- C9 (amended): after ensuring initialization, `get(key)` resolves with
    `values[key]` when that entry is defined; otherwise with the single
    extension-slot value whenever one is set, WHATEVER key was requested
    (the slot does not record the key it was stored under); otherwise with
    `null` — and the post-initialization computation is total, so `get`
    never rejects. -/
theorem get_contract (inst : ModelInstance) (k : String) :
    (∀ v, alookup inst.values k = some v → getModel inst k = GetResult.val v) ∧
    (alookup inst.values k = none →
      ∀ v, inst.extSlot = some v → getModel inst k = GetResult.val v) ∧
    (alookup inst.values k = none → inst.extSlot = none →
      getModel inst k = GetResult.nullRes) := by
  refine ⟨?_, ?_, ?_⟩
  · intro v hv
    unfold getModel
    rw [hv]
  · intro h v hv
    unfold getModel
    rw [h, hv]
  · intro h₁ h₂
    unfold getModel
    rw [h₁, h₂]

/-- Witness for the amended C9 theorem: all three branches at concrete
    instances. -/
theorem get_contract_witness :
    getModel ⟨[("name", JVal.vstr "King")], none⟩ "name" = GetResult.val (JVal.vstr "King") ∧
    getModel ⟨[], some (JVal.vstr "bar")⟩ "baz" = GetResult.val (JVal.vstr "bar") ∧
    getModel ⟨[], none⟩ "missing" = GetResult.nullRes :=
  ⟨(get_contract ⟨[("name", JVal.vstr "King")], none⟩ "name").1 (JVal.vstr "King") (by decide),
   (get_contract ⟨[], some (JVal.vstr "bar")⟩ "baz").2.1 (by decide) (JVal.vstr "bar") rfl,
   (get_contract ⟨[], none⟩ "missing").2.2 (by decide) rfl⟩

/-- C10: on an instance whose `values` map is empty, `has(k)` resolves
    `false` for every key even when the extension slot holds a value stored
    earlier via `set`, and `unset(k)` is a no-op that leaves the slot
    intact — both short-circuit on the empty `values` map before consulting
    the slot. -/
theorem has_unset_short_circuit_empty_values (cols : List String) (j k : String) (v : JVal)
    (hj : hasColumnJS cols j = false) :
    setModel cols ⟨[], none⟩ j v = ⟨[], some v⟩ ∧
    hasModel ⟨[], some v⟩ k = false ∧
    unsetModel ⟨[], some v⟩ k = ⟨[], some v⟩ := by
  refine ⟨?_, rfl, rfl⟩
  unfold setModel
  rw [hj]
  simp

/-- Witness for C10: storing `'bar'` under the non-column key `foo`, then
    probing `has`/`unset` with a genuine column name. -/
theorem has_unset_short_circuit_empty_values_witness :
    setModel ["id", "name"] ⟨[], none⟩ "foo" (JVal.vstr "bar") = ⟨[], some (JVal.vstr "bar")⟩ ∧
    hasModel ⟨[], some (JVal.vstr "bar")⟩ "name" = false ∧
    unsetModel ⟨[], some (JVal.vstr "bar")⟩ "name" = ⟨[], some (JVal.vstr "bar")⟩ :=
  has_unset_short_circuit_empty_values ["id", "name"] "foo" "name" (JVal.vstr "bar") (by decide)

lemma deleteRun_attempts_le_of_lt (l : List ExecOutcome) :
    ∀ k, k < MAX_RETRIES → (deleteRun (some k) l).attempts ≤ MAX_RETRIES - k := by
  simp only [MAX_RETRIES]
  induction l with
  | nil =>
    intro k hk
    simp [deleteRun]
  | cons o rest ih =>
    intro k hk
    cases o with
    | ok rows =>
      simp [deleteRun]
      omega
    | err c =>
      by_cases hc : c = "SQLITE_BUSY"
      · subst hc
        by_cases h₂ : k + 1 < 10
        · have hb := ih (k + 1) h₂
          simp [deleteRun, bumpRetry, MAX_RETRIES, h₂]
          omega
        · simp [deleteRun, bumpRetry, MAX_RETRIES, h₂]
          omega
      · simp [deleteRun, hc]
        omega

lemma deleteRun_attempts_le (l : List ExecOutcome) :
    (deleteRun none l).attempts ≤ MAX_RETRIES := by
  cases l with
  | nil => simp [deleteRun, MAX_RETRIES]
  | cons o rest =>
    cases o with
    | ok rows => simp [deleteRun, MAX_RETRIES]
    | err c =>
      by_cases hc : c = "SQLITE_BUSY"
      · subst hc
        have h₁ : bumpRetry none < MAX_RETRIES := by simp [bumpRetry, MAX_RETRIES]
        have hb := deleteRun_attempts_le_of_lt rest (bumpRetry none) h₁
        simp only [MAX_RETRIES, bumpRetry] at hb
        simp [deleteRun, bumpRetry, MAX_RETRIES, h₁]
        omega
      · simp [deleteRun, hc, MAX_RETRIES]

/-- C8 counterexample: the delete errors never surface as rejections. A
    non-busy backing-store error leaves the caller's promise FULFILLED with
    `undefined` (one attempt, no retry), and ten consecutive busy errors
    exhaust the retry ceiling with one warning while the caller's promise is
    again fulfilled with `undefined` — in both cases the claim requires the
    error to propagate as a rejection. -/
theorem sqlite_delete_swallows_errors :
    deleteRun none [ExecOutcome.err "EIO"] = ⟨1, 0, Settle.fulfilled none⟩ ∧
    deleteRun none (List.replicate 10 (ExecOutcome.err "SQLITE_BUSY")) =
      ⟨10, 1, Settle.fulfilled none⟩ ∧
    Settle.fulfilled (none : Option (List DbRow)) ≠ Settle.rejectedErr "EIO" ∧
    Settle.fulfilled (none : Option (List DbRow)) ≠ Settle.rejectedErr "SQLITE_BUSY" := by
  refine ⟨by decide, by decide, by decide, by decide⟩

/-- C8 (amended): `delete`/`deleteOne` retry only on the busy error code
    `SQLITE_BUSY`, and the total number of exec attempts never exceeds
    `MAX_RETRIES = 10`; a non-busy error causes exactly one attempt. But no
    error surfaces as a rejection: the caller's promise fulfills — with the
    result rows on first-attempt success and with `undefined` on any
    first-attempt failure (busy retries run detached and their outcome is
    discarded; errors are logged and swallowed). -/
theorem sqlite_delete_retry_policy (l : List ExecOutcome) (c : String) (rows : List DbRow)
    (hc : c ≠ "SQLITE_BUSY") :
    (deleteRun none (ExecOutcome.err c :: l)).attempts = 1 ∧
    (deleteRun none (ExecOutcome.err c :: l)).settle = Settle.fulfilled none ∧
    (deleteRun none (ExecOutcome.ok rows :: l)).settle = Settle.fulfilled (some rows) ∧
    (deleteRun none (ExecOutcome.err "SQLITE_BUSY" :: l)).settle = Settle.fulfilled none ∧
    (deleteOneRun none l).attempts ≤ MAX_RETRIES := by
  refine ⟨?_, ?_, rfl, ?_, deleteRun_attempts_le l⟩
  · simp [deleteRun, hc]
  · simp [deleteRun, hc]
  · simp only [deleteRun, if_pos rfl]
    split <;> rfl

/-- Witness for the amended C8 theorem at the concrete error code `EIO`. -/
theorem sqlite_delete_retry_policy_witness :
    (deleteRun none [ExecOutcome.err "EIO", ExecOutcome.ok []]).attempts = 1 ∧
    (deleteRun none [ExecOutcome.err "EIO", ExecOutcome.ok []]).settle =
      Settle.fulfilled none ∧
    (deleteRun none (ExecOutcome.ok [[("id", JVal.vnum 1)]] ::
        [ExecOutcome.err "EIO", ExecOutcome.ok []])).settle =
      Settle.fulfilled (some [[("id", JVal.vnum 1)]]) ∧
    (deleteRun none (ExecOutcome.err "SQLITE_BUSY" ::
        [ExecOutcome.err "EIO", ExecOutcome.ok []])).settle = Settle.fulfilled none ∧
    (deleteOneRun none [ExecOutcome.err "EIO", ExecOutcome.ok []]).attempts ≤ MAX_RETRIES :=
  sqlite_delete_retry_policy [ExecOutcome.err "EIO", ExecOutcome.ok []] "EIO"
    [[("id", JVal.vnum 1)]] (by decide)

lemma string_mk_toList (s : String) : String.mk s.toList = s := by
  cases s
  rfl

lemma toList_append (s t : String) : (s ++ t).toList = s.toList ++ t.toList :=
  String.data_append s t

lemma isPrefixOf_append_stable (pat l b : List Char) (h : pat.length ≤ l.length) :
    pat.isPrefixOf (l ++ b) = pat.isPrefixOf l := by
  by_cases hp : pat <+: l
  · rw [List.isPrefixOf_iff_prefix.mpr hp,
      List.isPrefixOf_iff_prefix.mpr (hp.trans (List.prefix_append l b))]
  · have h₁ : pat.isPrefixOf l = false := by
      rw [Bool.eq_false_iff]
      intro hc
      exact hp (List.isPrefixOf_iff_prefix.mp hc)
    have h₂ : pat.isPrefixOf (l ++ b) = false := by
      rw [Bool.eq_false_iff]
      intro hc
      exact hp (List.prefix_of_prefix_length_le (List.isPrefixOf_iff_prefix.mp hc)
        (List.prefix_append l b) h)
    rw [h₁, h₂]

lemma replaceFirstL_at (pat rep : List Char) (hpat : pat ≠ []) :
    ∀ (a b : List Char),
      (∀ i, i < a.length → pat.isPrefixOf ((a ++ pat).drop i) = false) →
      replaceFirstL (a ++ (pat ++ b)) pat rep = a ++ (rep ++ b) := by
  intro a
  induction a with
  | nil =>
    intro b _
    cases pat with
    | nil => exact absurd rfl hpat
    | cons p ps =>
      have hcond : (p :: ps).isPrefixOf (p :: (ps ++ b)) = true := by
        rw [List.isPrefixOf_iff_prefix]
        rw [show p :: (ps ++ b) = (p :: ps) ++ b from rfl]
        exact List.prefix_append _ _
      show replaceFirstL (p :: (ps ++ b)) (p :: ps) rep = rep ++ b
      rw [replaceFirstL, if_pos hcond]
      rw [show p :: (ps ++ b) = (p :: ps) ++ b from rfl, List.drop_left]
  | cons c a ih =>
    intro b hno
    have h₀ := hno 0 (by simp)
    rw [List.drop_zero] at h₀
    have hcond : pat.isPrefixOf (c :: (a ++ (pat ++ b))) = false := by
      rw [show c :: (a ++ (pat ++ b)) = ((c :: a) ++ pat) ++ b by simp]
      rw [isPrefixOf_append_stable pat _ b (by simp; omega)]
      exact h₀
    show replaceFirstL (c :: (a ++ (pat ++ b))) pat rep = c :: (a ++ (rep ++ b))
    rw [replaceFirstL, if_neg (by rw [hcond]; exact Bool.false_ne_true)]
    rw [ih b ?_]
    intro i hi
    have := hno (i + 1) (by simpa using Nat.succ_lt_succ hi)
    rw [show ((c :: a) ++ pat).drop (i + 1) = (a ++ pat).drop i from List.drop_succ_cons] at this
    exact this

lemma no_occurrence_of_head_notMem (p : Char) (ps a : List Char) (h : p ∉ a) :
    ∀ i, i < a.length → (p :: ps).isPrefixOf ((a ++ (p :: ps)).drop i) = false := by
  intro i hi
  rw [Bool.eq_false_iff]
  intro hc
  have hpre := List.isPrefixOf_iff_prefix.mp hc
  rw [List.drop_append_of_le_length (le_of_lt hi)] at hpre
  cases hd : a.drop i with
  | nil =>
    have : a.length - i = 0 := by
      rw [← List.length_drop, hd]
      rfl
    omega
  | cons x xs =>
    rw [hd, List.cons_append, List.cons_prefix_cons] at hpre
    have hx : x ∈ a := List.drop_subset i a (by rw [hd]; exact List.mem_cons_self x xs)
    rw [hpre.1] at h
    exact h hx

lemma prepareSubst_two (q x y : List Char) :
    prepareSubst q 1 [x, y] =
      replaceFirstL (replaceFirstL q "{1}".toList x) "{2}".toList y := rfl

/-- C3: `findById(id)` builds
    `SELECT * FROM backquoted-table WHERE backquoted-pk = quoted-id LIMIT 1`
    for every id; on zero rows it rejects with the structured error of code
    `ENOTFOUND`; on a row it copies every known column of that row into the
    instance's `values` map, registers the instance in the object pool under
    `(classname, id)`, and resolves with the instance itself. -/
theorem findById_contract (table pk : String) (id : JVal) (classname : String)
    (cols : List String) (row : DbRow) (rest : List DbRow)
    (values₀ : List (String × JVal)) (pool : PoolMap) (selfRef : Nat)
    (htable : '{' ∉ table.toList) (hpk : '{' ∉ pk.toList) :
    findByIdBuiltQuery table pk id =
      "SELECT * FROM `" ++ table ++ "` WHERE `" ++ pk ++ "` = '" ++ jshow id ++ "' LIMIT 1" ∧
    findByIdExec classname cols [] id values₀ pool selfRef =
      Except.error ⟨"ENOTFOUND"⟩ ∧
    (∀ res, findByIdExec classname cols (row :: rest) id values₀ pool selfRef = Except.ok res →
      (∀ c ∈ cols, alookup res.1 c = alookup row c) ∧
      poolLookup res.2.1 classname id = some selfRef ∧
      res.2.2 = selfRef) := by
  refine ⟨?_, rfl, ?_⟩
  · -- the built query
    have hq₁ : sprintfL "SELECT * FROM `{1}` WHERE `%s` = '{2}' LIMIT 1".toList [pk.toList] =
        "SELECT * FROM `".toList ++
          ("{1}".toList ++ ("` WHERE `".toList ++
            (pk.toList ++ "` = '{2}' LIMIT 1".toList))) := rfl
    have hs₁ : replaceFirstL
        ("SELECT * FROM `".toList ++
          ("{1}".toList ++ ("` WHERE `".toList ++
            (pk.toList ++ "` = '{2}' LIMIT 1".toList))))
        "{1}".toList table.toList =
        "SELECT * FROM `".toList ++
          (table.toList ++ ("` WHERE `".toList ++
            (pk.toList ++ "` = '{2}' LIMIT 1".toList))) :=
      replaceFirstL_at "{1}".toList table.toList (by decide) "SELECT * FROM `".toList _
        (by decide)
    have hshuffle : "SELECT * FROM `".toList ++
        (table.toList ++ ("` WHERE `".toList ++
          (pk.toList ++ "` = '{2}' LIMIT 1".toList))) =
        ("SELECT * FROM `".toList ++
          (table.toList ++ ("` WHERE `".toList ++ (pk.toList ++ "` = '".toList)))) ++
          ("{2}".toList ++ "' LIMIT 1".toList) := by
      simp only [List.append_assoc]
      rfl
    have hmem : '{' ∉ "SELECT * FROM `".toList ++
        (table.toList ++ ("` WHERE `".toList ++ (pk.toList ++ "` = '".toList))) := by
      simp only [List.mem_append]
      push_neg
      exact ⟨by decide, htable, by decide, hpk, by decide⟩
    have hs₂ : replaceFirstL
        (("SELECT * FROM `".toList ++
          (table.toList ++ ("` WHERE `".toList ++ (pk.toList ++ "` = '".toList)))) ++
          ("{2}".toList ++ "' LIMIT 1".toList))
        "{2}".toList (jshow id).toList =
        ("SELECT * FROM `".toList ++
          (table.toList ++ ("` WHERE `".toList ++ (pk.toList ++ "` = '".toList)))) ++
          ((jshow id).toList ++ "' LIMIT 1".toList) :=
      replaceFirstL_at "{2}".toList (jshow id).toList (by decide) _ "' LIMIT 1".toList
        (no_occurrence_of_head_notMem '{' ['2', '}'] _ hmem)
    show String.mk (prepareSubst
        (sprintfL "SELECT * FROM `{1}` WHERE `%s` = '{2}' LIMIT 1".toList [pk.toList])
        1 [table.toList, (jshow id).toList]) = _
    rw [prepareSubst_two, hq₁, hs₁, hshuffle, hs₂]
    have hr : ("SELECT * FROM `" ++ table ++ "` WHERE `" ++ pk ++ "` = '" ++ jshow id ++
        "' LIMIT 1").toList =
        ("SELECT * FROM `".toList ++
          (table.toList ++ ("` WHERE `".toList ++ (pk.toList ++ "` = '".toList)))) ++
          ((jshow id).toList ++ "' LIMIT 1".toList) := by
      simp only [toList_append, List.append_assoc]
    rw [← hr, string_mk_toList]
  · -- one row or more: copy, pool, resolve with self
    intro res hres
    have hres₂ : (Except.ok
        (cols.foldl (fun acc c => aset acc c (alookup row c)) values₀,
         addToPool pool classname id selfRef, selfRef) :
          Except NotFoundError (List (String × JVal) × PoolMap × Nat)) = Except.ok res := by
      rw [← hres]
      rfl
    have hres₃ := Except.ok.inj hres₂
    refine ⟨?_, ?_, ?_⟩
    · intro c hc
      rw [← hres₃]
      exact alookup_foldl_aset_mem row cols values₀ c hc
    · rw [← hres₃]
      exact poolLookup_addToPool pool classname id selfRef
    · rw [← hres₃]

/-- Witness for C3 at the seeded `models` table. -/
theorem findById_contract_witness :
    findByIdBuiltQuery "models" "id" (JVal.vnum 1) =
      "SELECT * FROM `" ++ "models" ++ "` WHERE `" ++ "id" ++ "` = '" ++
        jshow (JVal.vnum 1) ++ "' LIMIT 1" ∧
    findByIdExec "Model" ["id", "name"] [] (JVal.vnum 1) [] [] 0 =
      Except.error ⟨"ENOTFOUND"⟩ ∧
    (∀ res, findByIdExec "Model" ["id", "name"]
        [[("id", JVal.vnum 1), ("name", JVal.vstr "Adelia")]] (JVal.vnum 1) [] [] 0 =
        Except.ok res →
      (∀ c ∈ ["id", "name"],
        alookup res.1 c = alookup [("id", JVal.vnum 1), ("name", JVal.vstr "Adelia")] c) ∧
      poolLookup res.2.1 "Model" (JVal.vnum 1) = some 0 ∧
      res.2.2 = 0) :=
  findById_contract "models" "id" (JVal.vnum 1) "Model" ["id", "name"]
    [("id", JVal.vnum 1), ("name", JVal.vstr "Adelia")] [] [] [] 0 (by decide) (by decide)

lemma string_mk_eq_of_toList (l : List Char) (s : String) (h : s.toList = l) :
    String.mk l = s := by
  rw [← h, string_mk_toList]

lemma jshowOpt_if_str (b : Bool) (s : String) (o : Option JVal) :
    jshowOpt (if b then some (JVal.vstr s) else o) = if b then s else jshowOpt o := by
  cases b <;> rfl

lemma jshowOpt_if_num (b : Bool) (n : Int) (o : Option JVal) :
    jshowOpt (if b then some (JVal.vnum n) else o) = if b then toString n else jshowOpt o := by
  cases b <;> rfl

lemma sprintfL_findAll (w₁ w₂ w₃ w₄ : List Char) :
    sprintfL "SELECT * FROM `{1}` WHERE (1 AND (%s)) ORDER BY %s LIMIT %s, %s".toList
      [w₁, w₂, w₃, w₄] =
    "SELECT * FROM `{1}` WHERE (1 AND (".toList ++
      (w₁ ++ (")) ORDER BY ".toList ++ (w₂ ++ (" LIMIT ".toList ++ (w₃ ++ (", ".toList ++ w₄))))))
    := by
  have h : sprintfL "SELECT * FROM `{1}` WHERE (1 AND (%s)) ORDER BY %s LIMIT %s, %s".toList
      [w₁, w₂, w₃, w₄] =
      "SELECT * FROM `{1}` WHERE (1 AND (".toList ++
        (w₁ ++ (")) ORDER BY ".toList ++
          (w₂ ++ (" LIMIT ".toList ++ (w₃ ++ (", ".toList ++ (w₄ ++ []))))))) := rfl
  rw [h, List.append_nil]

lemma prepareSubst_one (q x : List Char) :
    prepareSubst q 1 [x] = replaceFirstL q "{1}".toList x := rfl

lemma orderBy_default (pk : String) :
    String.mk (sprintfL "`%s` ASC".toList [pk.toList]) = "`" ++ pk ++ "` ASC" :=
  string_mk_eq_of_toList _ _ (by simp only [toList_append, List.append_assoc]; rfl)

/-- C5 counterexample: a caller-supplied NUMERIC limit of 1 does not appear
    in the executed query — `_.isEmpty(1)` is true in lodash, so the numeric
    option is overwritten by the default and the query reads `LIMIT 0, 999`
    instead of the claimed `LIMIT 0, 1`. -/
theorem findAll_numeric_limit_overridden :
    findAllBuiltQuery "cats" "id" ⟨none, none, some (JVal.vnum 1), none⟩ =
      "SELECT * FROM `cats` WHERE (1 AND (1)) ORDER BY `id` ASC LIMIT 0, 999" ∧
    findAllBuiltQuery "cats" "id" ⟨none, none, some (JVal.vnum 1), none⟩ ≠
      "SELECT * FROM `cats` WHERE (1 AND (1)) ORDER BY `id` ASC LIMIT 0, 1" := by
  constructor
  · decide
  · decide

/-- C5 (amended): the executed query is
    `SELECT * FROM backquoted-table WHERE (1 AND (whereClause)) ORDER BY
    orderBy LIMIT start, limit`, where each option falls back to its default
    (`1`, `pk ASC`, `999`, `0`) whenever lodash `_.isEmpty` holds of the
    supplied value — in particular for EVERY numeric value, since lodash
    treats numbers as empty; only a non-empty string survives. On zero rows
    findAll resolves with null; otherwise each returned row is
    rematerialized via `findById` on the row's primary-key value. -/
theorem findAll_contract (table pk : String) (p : FindAllParams) (rows : List DbRow)
    (hrows : rows ≠ []) :
    findAllBuiltQuery table pk p =
      "SELECT * FROM `" ++ table ++ "` WHERE (1 AND (" ++
        (if isEmptyJS p.whereClause then "1" else jshowOpt p.whereClause) ++ ")) ORDER BY " ++
        (if isEmptyJS p.orderBy then "`" ++ pk ++ "` ASC" else jshowOpt p.orderBy) ++
        " LIMIT " ++
        (if isEmptyJS p.start then "0" else jshowOpt p.start) ++ ", " ++
        (if isEmptyJS p.limit then "999" else jshowOpt p.limit) ∧
    findAllRematIds [] pk = none ∧
    findAllRematIds rows pk = some (rows.map (fun r => alookup r pk)) := by
  refine ⟨?_, rfl, ?_⟩
  · show String.mk (prepareSubst
      (sprintfL "SELECT * FROM `{1}` WHERE (1 AND (%s)) ORDER BY %s LIMIT %s, %s".toList
        [(jshowOpt (if isEmptyJS p.whereClause then some (JVal.vstr "1")
            else p.whereClause)).toList,
         (jshowOpt (if isEmptyJS p.orderBy
            then some (JVal.vstr (String.mk (sprintfL "`%s` ASC".toList [pk.toList])))
            else p.orderBy)).toList,
         (jshowOpt (if isEmptyJS p.start then some (JVal.vnum 0) else p.start)).toList,
         (jshowOpt (if isEmptyJS p.limit then some (JVal.vnum 999) else p.limit)).toList])
      1 [table.toList]) = _
    rw [sprintfL_findAll, prepareSubst_one]
    have hq : "SELECT * FROM `{1}` WHERE (1 AND (".toList ++
        ((jshowOpt (if isEmptyJS p.whereClause then some (JVal.vstr "1")
            else p.whereClause)).toList ++
          (")) ORDER BY ".toList ++
            ((jshowOpt (if isEmptyJS p.orderBy
                then some (JVal.vstr (String.mk (sprintfL "`%s` ASC".toList [pk.toList])))
                else p.orderBy)).toList ++
              (" LIMIT ".toList ++
                ((jshowOpt (if isEmptyJS p.start then some (JVal.vnum 0)
                    else p.start)).toList ++
                  (", ".toList ++
                    (jshowOpt (if isEmptyJS p.limit then some (JVal.vnum 999)
                        else p.limit)).toList)))))) =
        "SELECT * FROM `".toList ++ ("{1}".toList ++
          ("` WHERE (1 AND (".toList ++
            ((jshowOpt (if isEmptyJS p.whereClause then some (JVal.vstr "1")
                else p.whereClause)).toList ++
              (")) ORDER BY ".toList ++
                ((jshowOpt (if isEmptyJS p.orderBy
                    then some (JVal.vstr (String.mk (sprintfL "`%s` ASC".toList [pk.toList])))
                    else p.orderBy)).toList ++
                  (" LIMIT ".toList ++
                    ((jshowOpt (if isEmptyJS p.start then some (JVal.vnum 0)
                        else p.start)).toList ++
                      (", ".toList ++
                        (jshowOpt (if isEmptyJS p.limit then some (JVal.vnum 999)
                            else p.limit)).toList)))))))) := rfl
    rw [hq]
    rw [replaceFirstL_at "{1}".toList table.toList (by decide) "SELECT * FROM `".toList _
      (by decide)]
    rw [jshowOpt_if_str, jshowOpt_if_str, jshowOpt_if_num, jshowOpt_if_num, orderBy_default]
    have h0 : toString (0 : Int) = "0" := rfl
    have h999 : toString (999 : Int) = "999" := rfl
    rw [h0, h999]
    exact string_mk_eq_of_toList _ _ (by simp only [toList_append, List.append_assoc])
  · unfold findAllRematIds
    rw [if_pos (by simpa [List.length_pos] using hrows)]

/-- Witness for the amended C5 theorem: a string whereClause survives, a
    numeric limit falls back to 999. -/
theorem findAll_contract_witness :
    findAllBuiltQuery "people" "id"
        ⟨some (JVal.vstr "`age` = 60"), none, some (JVal.vnum 1), none⟩ =
      "SELECT * FROM `" ++ "people" ++ "` WHERE (1 AND (" ++
        (if isEmptyJS (some (JVal.vstr "`age` = 60")) then "1"
          else jshowOpt (some (JVal.vstr "`age` = 60"))) ++ ")) ORDER BY " ++
        (if isEmptyJS (none : Option JVal) then "`" ++ "id" ++ "` ASC"
          else jshowOpt (none : Option JVal)) ++ " LIMIT " ++
        (if isEmptyJS (none : Option JVal) then "0"
          else jshowOpt (none : Option JVal)) ++ ", " ++
        (if isEmptyJS (some (JVal.vnum 1)) then "999"
          else jshowOpt (some (JVal.vnum 1))) ∧
    findAllRematIds [] "id" = none ∧
    findAllRematIds [[("id", JVal.vnum 3)], [("id", JVal.vnum 5)]] "id" =
      some ([[("id", JVal.vnum 3)], [("id", JVal.vnum 5)]].map (fun r => alookup r "id")) :=
  findAll_contract "people" "id" ⟨some (JVal.vstr "`age` = 60"), none, some (JVal.vnum 1), none⟩
    [[("id", JVal.vnum 3)], [("id", JVal.vnum 5)]] (by decide)

/-- C4 (code bug): `save` declares no parameter, so a caller-supplied options
    object is discarded and the decision reads the never-assigned instance
    fields `_force_create` / `_ignore`. At the repository's own test input
    (`save({force: true})` on an instance with primary key 99 — the test
    named "opts.force inserts a model when primary key is set") the code
    emits an UPDATE keyed by the primary key instead of the INSERT that the
    claim and the test require. The remaining conjuncts evaluate the rest of
    the claimed behavior: a generated insert id is adopted as the new
    primary-key value, and undefined columns are omitted from the INSERT. -/
theorem save_ignores_options_argument :
    saveBuiltQuery "models" "id" ["id", "name"]
        [("id", JVal.vnum 99), ("name", JVal.vstr "Puffin")] false false ⟨true, false⟩ =
      "UPDATE `models` SET `id` = '99', `name` = 'Puffin' WHERE `id` = '99'" ∧
    saveBuiltQuery "models" "id" ["id", "name"]
        [("id", JVal.vnum 99), ("name", JVal.vstr "Puffin")] false false ⟨true, false⟩ ≠
      "INSERT INTO `models` (`id`, `name`) VALUES ('99', 'Puffin')" ∧
    saveBuiltQuery "models" "id" ["id", "name"] [("name", JVal.vstr "King")] false false
        ⟨false, false⟩ =
      "INSERT INTO `models` (`name`) VALUES ('King')" ∧
    saveBuiltQuery "models" "id" ["id", "name"] [("name", JVal.vstr "King")] false true
        ⟨false, true⟩ =
      "INSERT IGNORE INTO `models` (`name`) VALUES ('King')" ∧
    saveAdoptId [("name", JVal.vstr "King")] "id" (some 42) =
      [("name", JVal.vstr "King"), ("id", JVal.vnum 42)] ∧
    saveAdoptId [("id", JVal.vnum 99), ("name", JVal.vstr "Puffin")] "id" none =
      [("id", JVal.vnum 99), ("name", JVal.vstr "Puffin")] := by
  refine ⟨by decide, by decide, by decide, by decide, by decide, by decide⟩

lemma endsL_iff {t s : List Char} : endsL t s = true ↔ ∃ u, t = u ++ s := by
  unfold endsL
  rw [List.isPrefixOf_iff_prefix, List.reverse_prefix]
  constructor
  · rintro ⟨u, hu⟩
    exact ⟨u, hu.symm⟩
  · rintro ⟨u, hu⟩
    exact ⟨u, hu.symm⟩

lemma endsL_append (u s : List Char) : endsL (u ++ s) s = true :=
  endsL_iff.mpr ⟨u, rfl⟩

lemma endsL_refl (t : List Char) : endsL t t = true :=
  endsL_iff.mpr ⟨[], rfl⟩

lemma endsL_eq_false {t s : List Char} (h : ∀ u, t ≠ u ++ s) : endsL t s = false := by
  rw [Bool.eq_false_iff]
  intro hc
  obtain ⟨u, hu⟩ := endsL_iff.mp hc
  exact h u hu

lemma snoc_inj {x y : List Char} {a b : Char} (h : x ++ [a] = y ++ [b]) :
    x = y ∧ a = b := by
  have hr := congrArg List.reverse h
  simp only [List.reverse_append, List.reverse_cons, List.reverse_nil, List.nil_append,
    List.singleton_append, List.cons.injEq] at hr
  exact ⟨by rw [← List.reverse_inj]; exact hr.2, hr.1⟩

lemma snoc₂_inj {x y : List Char} {a₁ a₂ b₁ b₂ : Char}
    (h : x ++ [a₁, a₂] = y ++ [b₁, b₂]) : x = y ∧ a₁ = b₁ ∧ a₂ = b₂ := by
  have h₁ : (x ++ [a₁]) ++ [a₂] = (y ++ [b₁]) ++ [b₂] := by
    simpa [List.append_assoc] using h
  obtain ⟨h₂, h₃⟩ := snoc_inj h₁
  obtain ⟨h₄, h₅⟩ := snoc_inj h₂
  exact ⟨h₄, h₅, h₃⟩

lemma snoc₃_inj {x y : List Char} {a₁ a₂ a₃ b₁ b₂ b₃ : Char}
    (h : x ++ [a₁, a₂, a₃] = y ++ [b₁, b₂, b₃]) :
    x = y ∧ a₁ = b₁ ∧ a₂ = b₂ ∧ a₃ = b₃ := by
  have h₁ : (x ++ [a₁]) ++ [a₂, a₃] = (y ++ [b₁]) ++ [b₂, b₃] := by
    simpa [List.append_assoc] using h
  obtain ⟨h₂, h₃, h₄⟩ := snoc₂_inj h₁
  obtain ⟨h₅, h₆⟩ := snoc_inj h₂
  exact ⟨h₅, h₆, h₃, h₄⟩


lemma endsL_snoc_ne_false {w s₀ : List Char} {a b : Char} (hab : a ≠ b) :
    endsL (w ++ [a]) (s₀ ++ [b]) = false := by
  apply endsL_eq_false
  intro v hv
  have h₂ : w ++ [a] = (v ++ s₀) ++ [b] := by
    rw [hv, List.append_assoc]
  exact absurd (snoc_inj h₂).2 hab

lemma irregular_plural_find_none_snoc_s (w : List Char) :
    irregular_nouns.find? (fun q => endsL (w ++ ['s']) q.2) = none := by
  rw [List.find?_eq_none]
  intro q hq
  simp only [irregular_nouns, List.mem_cons, List.not_mem_nil, or_false] at hq
  rcases hq with h | h | h | h <;> subst h <;> intro hc
  · have h₂ : endsL (w ++ ['s']) ("peopl".toList ++ ['e']) = true := hc
    rw [endsL_snoc_ne_false (by decide)] at h₂
    exact Bool.false_ne_true h₂
  · have h₂ : endsL (w ++ ['s']) ("childre".toList ++ ['n']) = true := hc
    rw [endsL_snoc_ne_false (by decide)] at h₂
    exact Bool.false_ne_true h₂
  · have h₂ : endsL (w ++ ['s']) ("me".toList ++ ['n']) = true := hc
    rw [endsL_snoc_ne_false (by decide)] at h₂
    exact Bool.false_ne_true h₂
  · have h₂ : endsL (w ++ ['s']) ("wome".toList ++ ['n']) = true := hc
    rw [endsL_snoc_ne_false (by decide)] at h₂
    exact Bool.false_ne_true h₂

lemma irregular_key_find_none_snoc_s (w : List Char) :
    irregular_nouns.find? (fun q => decide (q.1 = w ++ ['s'])) = none := by
  rw [List.find?_eq_none]
  intro q hq
  simp only [irregular_nouns, List.mem_cons, List.not_mem_nil, or_false] at hq
  rcases hq with h | h | h | h <;> subst h <;> simp only [decide_eq_true_eq] <;> intro hc
  · have h₂ : w ++ ['s'] = "perso".toList ++ ['n'] := hc.symm
    exact absurd (snoc_inj h₂).2 (by decide)
  · have h₂ : w ++ ['s'] = "chil".toList ++ ['d'] := hc.symm
    exact absurd (snoc_inj h₂).2 (by decide)
  · have h₂ : w ++ ['s'] = "ma".toList ++ ['n'] := hc.symm
    exact absurd (snoc_inj h₂).2 (by decide)
  · have h₂ : w ++ ['s'] = "woma".toList ++ ['n'] := hc.symm
    exact absurd (snoc_inj h₂).2 (by decide)

lemma singularizeL_snoc_s (w : List Char) :
    singularizeL (w ++ ['s']) =
      if endsL (w ++ ['s']) "xes".toList || endsL (w ++ ['s']) "oes".toList then
        some ((w ++ ['s']).take ((w ++ ['s']).length - 2))
      else if endsL (w ++ ['s']) "ies".toList then
        some ((w ++ ['s']).take ((w ++ ['s']).length - 3) ++ "y".toList)
      else some w := by
  simp only [singularizeL, irregular_plural_find_none_snoc_s w, irregular_key_find_none_snoc_s w]
  by_cases h₁ : endsL (w ++ ['s']) "xes".toList || endsL (w ++ ['s']) "oes".toList
  · rw [if_pos h₁, if_pos h₁]
  · rw [if_neg h₁, if_neg h₁]
    by_cases h₂ : endsL (w ++ ['s']) "ies".toList
    · rw [if_pos h₂, if_pos h₂]
    · rw [if_neg h₂, if_neg h₂]
      rw [if_pos (show endsL (w ++ ['s']) "s".toList = true from endsL_append w ['s'])]
      have hlen : (w ++ ['s']).length - 1 = w.length := by simp
      rw [hlen, List.take_left]

theorem pluralize_singularize_regular (t : List Char)
    (h1 : irregular_nouns.find? (fun q => endsL t q.1) = none)
    (h2 : endsL t "s".toList = false)
    (h3 : endsL t "ie".toList = false)
    (h4 : endsL t "oe".toList = false)
    (h5 : endsL t "xe".toList = false) :
    singularizeL (pluralizeL t) = some t := by
  have hnp := List.find?_eq_none.mp h1
  have hchild : endsL t "child".toList = false := by
    have h := hnp ("child".toList, "children".toList) (by simp [irregular_nouns])
    simpa using h
  have hf₂ : irregular_nouns.find? (fun q => decide (q.1 = t)) = none := by
    rw [List.find?_eq_none]
    intro q hq
    simp only [decide_eq_true_eq]
    intro hqt
    have h := hnp q hq
    rw [hqt] at h
    exact h (endsL_refl t)
  have hplural : pluralizeL t =
      (if endsL t "s".toList || endsL t "x".toList ||
          (endsL t "o".toList && !endsL t "oo".toList) then t ++ "es".toList
       else if endsL t "y".toList then t.take (t.length - 1) ++ "ies".toList
       else t ++ "s".toList) := by
    simp only [pluralizeL, h1, hf₂, hchild, Bool.false_eq_true, if_false]
  rw [hplural]
  by_cases hx : endsL t "x".toList = true
  · -- trailing x: plural appends es, singular strips xes
    obtain ⟨u, hu⟩ := endsL_iff.mp hx
    rw [if_pos (by rw [h2, hx]; rfl)]
    have hsh : t ++ "es".toList = (t ++ ['e']) ++ ['s'] := (List.append_assoc t ['e'] ['s']).symm
    rw [hsh, singularizeL_snoc_s]
    have hxes : endsL ((t ++ ['e']) ++ ['s']) "xes".toList = true := by
      have hv : (t ++ ['e']) ++ ['s'] = u ++ "xes".toList := by
        rw [hu]
        simp [List.append_assoc]
      rw [hv]
      exact endsL_append u _
    rw [if_pos (by rw [hxes]; rfl)]
    have hlen : (((t ++ ['e']) ++ ['s']).length - 2) = t.length := by simp
    have hshape : (t ++ ['e']) ++ ['s'] = t ++ ['e', 's'] := List.append_assoc t ['e'] ['s']
    rw [hlen, hshape, List.take_left]
  · by_cases ho : endsL t "o".toList = true
    · by_cases hoo : endsL t "oo".toList = true
      · -- trailing oo: plural appends s, singular strips it
        obtain ⟨u, hu⟩ := endsL_iff.mp hoo
        obtain ⟨u₁, hu₁⟩ := endsL_iff.mp ho
        have hxF : endsL t "x".toList = false := by
          rw [Bool.eq_false_iff]
          exact hx
        have hy : endsL t "y".toList = false := by
          rw [show t = u₁ ++ ['o'] from hu₁]
          exact @endsL_snoc_ne_false u₁ [] 'o' 'y' (by decide)
        rw [if_neg (by rw [h2, hxF, ho, hoo]; simp), if_neg (by rw [hy]; simp)]
        have hconv : t ++ "s".toList = t ++ ['s'] := rfl
        rw [hconv, singularizeL_snoc_s]
        have hts : t ++ ['s'] = u ++ ['o', 'o', 's'] := by
          rw [hu]
          simp [List.append_assoc]
        have hxesF : endsL (t ++ ['s']) "xes".toList = false := by
          apply endsL_eq_false
          intro v hv
          have h₂ : u ++ ['o', 'o', 's'] = v ++ ['x', 'e', 's'] := by
            rw [← hts, hv]
            rfl
          exact absurd (snoc₃_inj h₂).2.2.1 (by decide)
        have hoesF : endsL (t ++ ['s']) "oes".toList = false := by
          apply endsL_eq_false
          intro v hv
          have h₂ : u ++ ['o', 'o', 's'] = v ++ ['o', 'e', 's'] := by
            rw [← hts, hv]
            rfl
          exact absurd (snoc₃_inj h₂).2.2.1 (by decide)
        have hiesF : endsL (t ++ ['s']) "ies".toList = false := by
          apply endsL_eq_false
          intro v hv
          have h₂ : u ++ ['o', 'o', 's'] = v ++ ['i', 'e', 's'] := by
            rw [← hts, hv]
            rfl
          exact absurd (snoc₃_inj h₂).2.2.1 (by decide)
        rw [if_neg (by rw [hxesF, hoesF]; simp), if_neg (by rw [hiesF]; simp)]
      · -- trailing o (not oo): plural appends es, singular strips oes
        obtain ⟨u, hu⟩ := endsL_iff.mp ho
        rw [if_pos (by rw [h2]; rw [Bool.eq_false_iff.mpr hx, ho,
          Bool.eq_false_iff.mpr hoo]; rfl)]
        have hsh : t ++ "es".toList = (t ++ ['e']) ++ ['s'] :=
          (List.append_assoc t ['e'] ['s']).symm
        rw [hsh, singularizeL_snoc_s]
        have hts : (t ++ ['e']) ++ ['s'] = u ++ ['o', 'e', 's'] := by
          rw [hu]
          simp [List.append_assoc]
        have hxesF : endsL ((t ++ ['e']) ++ ['s']) "xes".toList = false := by
          apply endsL_eq_false
          intro v hv
          have h₂ : u ++ ['o', 'e', 's'] = v ++ ['x', 'e', 's'] := by
            rw [← hts, hv]
            rfl
          exact absurd (snoc₃_inj h₂).2.1 (by decide)
        have hoes : endsL ((t ++ ['e']) ++ ['s']) "oes".toList = true := by
          rw [hts]
          exact endsL_append u _
        rw [if_pos (by rw [hxesF, hoes]; rfl)]
        have hlen : (((t ++ ['e']) ++ ['s']).length - 2) = t.length := by simp
        have hshape : (t ++ ['e']) ++ ['s'] = t ++ ['e', 's'] := List.append_assoc t ['e'] ['s']
        rw [hlen, hshape, List.take_left]
    · by_cases hy : endsL t "y".toList = true
      · -- trailing y: plural replaces y with ies, singular restores it
        obtain ⟨u, hu⟩ := endsL_iff.mp hy
        rw [if_neg (by rw [h2, Bool.eq_false_iff.mpr hx, Bool.eq_false_iff.mpr ho]; simp),
          if_pos (by rw [hy])]
        have htake : t.take (t.length - 1) = u := by
          rw [hu]
          simp [List.take_left]
        rw [htake]
        have hsh : u ++ "ies".toList = (u ++ ['i', 'e']) ++ ['s'] := by
          simp [List.append_assoc]
        rw [hsh, singularizeL_snoc_s]
        have hts : (u ++ ['i', 'e']) ++ ['s'] = u ++ ['i', 'e', 's'] := by
          simp [List.append_assoc]
        have hxesF : endsL ((u ++ ['i', 'e']) ++ ['s']) "xes".toList = false := by
          apply endsL_eq_false
          intro v hv
          have h₂ : u ++ ['i', 'e', 's'] = v ++ ['x', 'e', 's'] := by
            rw [← hts, hv]
            rfl
          exact absurd (snoc₃_inj h₂).2.1 (by decide)
        have hoesF : endsL ((u ++ ['i', 'e']) ++ ['s']) "oes".toList = false := by
          apply endsL_eq_false
          intro v hv
          have h₂ : u ++ ['i', 'e', 's'] = v ++ ['o', 'e', 's'] := by
            rw [← hts, hv]
            rfl
          exact absurd (snoc₃_inj h₂).2.1 (by decide)
        have hies : endsL ((u ++ ['i', 'e']) ++ ['s']) "ies".toList = true := by
          rw [hts]
          exact endsL_append u _
        rw [if_neg (by rw [hxesF, hoesF]; simp), if_pos (by rw [hies])]
        have hlen : (((u ++ ['i', 'e']) ++ ['s']).length - 3) = u.length := by simp
        rw [hlen, hts, List.take_left]
        rw [hu]
      · -- default: plural appends s, singular strips it
        rw [if_neg (by rw [h2, Bool.eq_false_iff.mpr hx, Bool.eq_false_iff.mpr ho]; simp),
          if_neg (by rw [Bool.eq_false_iff.mpr hy]; simp)]
        have hconv : t ++ "s".toList = t ++ ['s'] := rfl
        rw [hconv, singularizeL_snoc_s]
        have hxesF : endsL (t ++ ['s']) "xes".toList = false := by
          apply endsL_eq_false
          intro v hv
          have h₂ : t ++ ['s'] = (v ++ ['x', 'e']) ++ ['s'] := by
            rw [hv]
            simp [List.append_assoc]
          have ht := (snoc_inj h₂).1
          have hc : endsL t "xe".toList = true := by
            rw [ht]
            exact endsL_append v ['x', 'e']
          rw [h5] at hc
          exact Bool.false_ne_true hc
        have hoesF : endsL (t ++ ['s']) "oes".toList = false := by
          apply endsL_eq_false
          intro v hv
          have h₂ : t ++ ['s'] = (v ++ ['o', 'e']) ++ ['s'] := by
            rw [hv]
            simp [List.append_assoc]
          have ht := (snoc_inj h₂).1
          have hc : endsL t "oe".toList = true := by
            rw [ht]
            exact endsL_append v ['o', 'e']
          rw [h4] at hc
          exact Bool.false_ne_true hc
        have hiesF : endsL (t ++ ['s']) "ies".toList = false := by
          apply endsL_eq_false
          intro v hv
          have h₂ : t ++ ['s'] = (v ++ ['i', 'e']) ++ ['s'] := by
            rw [hv]
            simp [List.append_assoc]
          have ht := (snoc_inj h₂).1
          have hc : endsL t "ie".toList = true := by
            rw [ht]
            exact endsL_append v ['i', 'e']
          rw [h3] at hc
          exact Bool.false_ne_true hc
        rw [if_neg (by rw [hxesF, hoesF]; simp), if_neg (by rw [hiesF]; simp)]

/-- C6 counterexample: the regular round trip fails. `bus` is a regular noun
    (no irregular-table match), yet `singularize(pluralize("bus"))` is
    `"buse"`, not `"bus"`; the families ending in `ie`, `oe`, `xe` fail the
    same way (`tie` to `ty`, `toe` to `to`, `axe` to `ax`). -/
theorem inflection_round_trip_counterexample :
    singularizeL (pluralizeL "bus".toList) = some "buse".toList ∧
    some "buse".toList ≠ some "bus".toList ∧
    singularizeL (pluralizeL "tie".toList) = some "ty".toList ∧
    some "ty".toList ≠ some "tie".toList ∧
    singularizeL (pluralizeL "toe".toList) = some "to".toList ∧
    some "to".toList ≠ some "toe".toList ∧
    singularizeL (pluralizeL "axe".toList) = some "ax".toList ∧
    some "ax".toList ≠ some "axe".toList := by
  refine ⟨by decide, by decide, by decide, by decide, by decide, by decide, by decide, by decide⟩

/-- C6 (amended): for every regular noun — one with no irregular-table
    suffix match — that moreover does not end in `s`, `ie`, `oe` or `xe`,
    `singularize(pluralize(w)) = w`; and the fixed irregular pairs
    person/people, child/children, man/men, woman/women together with their
    suffix compounds map exactly in both directions. -/
theorem inflection_round_trip (t : List Char)
    (h1 : irregular_nouns.find? (fun q => endsL t q.1) = none)
    (h2 : endsL t "s".toList = false)
    (h3 : endsL t "ie".toList = false)
    (h4 : endsL t "oe".toList = false)
    (h5 : endsL t "xe".toList = false) :
    singularizeL (pluralizeL t) = some t ∧
    pluralize "person" = "people" ∧ pluralize "child" = "children" ∧
    pluralize "man" = "men" ∧ pluralize "woman" = "women" ∧
    pluralize "grandchild" = "grandchildren" ∧ pluralize "policeman" = "policemen" ∧
    pluralize "chairwoman" = "chairwomen" ∧
    singularize "people" = some "person" ∧ singularize "children" = some "child" ∧
    singularize "men" = some "man" ∧ singularize "women" = some "woman" ∧
    singularize "grandchildren" = some "grandchild" ∧
    singularize "policemen" = some "policeman" ∧
    singularize "chairwomen" = some "chairwoman" := by
  refine ⟨pluralize_singularize_regular t h1 h2 h3 h4 h5, by decide, by decide, by decide,
    by decide, by decide, by decide, by decide, by decide, by decide, by decide, by decide,
    by decide, by decide, by decide⟩

/-- Witness for the amended C6 theorem at the regular noun `cat`. -/
theorem inflection_round_trip_witness :
    singularizeL (pluralizeL "cat".toList) = some "cat".toList ∧
    pluralize "person" = "people" ∧ pluralize "child" = "children" ∧
    pluralize "man" = "men" ∧ pluralize "woman" = "women" ∧
    pluralize "grandchild" = "grandchildren" ∧ pluralize "policeman" = "policemen" ∧
    pluralize "chairwoman" = "chairwomen" ∧
    singularize "people" = some "person" ∧ singularize "children" = some "child" ∧
    singularize "men" = some "man" ∧ singularize "women" = some "woman" ∧
    singularize "grandchildren" = some "grandchild" ∧
    singularize "policemen" = some "policeman" ∧
    singularize "chairwomen" = some "chairwoman" :=
  inflection_round_trip "cat".toList (by decide) (by decide) (by decide) (by decide) (by decide)
